import Mathlib

/-!
Verification of the restaurant ingestion pipeline of this repository
(airflow/dags/utils/task_functions.py): a shallow embedding of the
address parser (DataFormatter.parse_street_name), the opening-hours
formatter (DataFormatter.format_opening_hours_periods), and the
database-facing processing steps (RestaurantDataProcessor), with
theorems checking the stated properties.

Python strings are modelled as lists of characters; Python regular
expression steps are translated operation by operation (the regexes in
the source use only disjoint character classes, so greedy matching is
deterministic and each one is translated to a direct scan).  Machine
oddities that cannot arise on the data handled here are noted next to
the definition concerned.
-/

/-- Whitespace test used by Python str.split and str.strip (ASCII range;
the addresses handled by the pipeline contain no exotic Unicode spaces). -/
def isPySpace (c : Char) : Bool :=
  c = ' ' || c = '\t' || c = '\n' || c = '\r' || c = '\x0b' || c = '\x0c'

/-- Python str.strip with no arguments. -/
def pyStrip (l : List Char) : List Char :=
  ((l.dropWhile isPySpace).reverse.dropWhile isPySpace).reverse

/-- Python str.strip with an explicit character set (used as strip of space and comma). -/
def pyStripChars (cs : List Char) (l : List Char) : List Char :=
  ((l.dropWhile (cs.contains ·)).reverse.dropWhile (cs.contains ·)).reverse

/-- Python str.split with no arguments: split on whitespace runs, dropping empties. -/
def pySplitWsAux : List Char → List Char → List (List Char)
  | acc, [] => if acc.isEmpty then [] else [acc.reverse]
  | acc, c :: rest =>
    if isPySpace c then
      if acc.isEmpty then pySplitWsAux [] rest
      else acc.reverse :: pySplitWsAux [] rest
    else pySplitWsAux (c :: acc) rest

def pySplitWs (l : List Char) : List (List Char) := pySplitWsAux [] l

/-- Python sep.join. -/
def joinWith (sep : List Char) : List (List Char) → List Char
  | [] => []
  | [x] => x
  | x :: y :: rest => x ++ sep ++ joinWith sep (y :: rest)

/-- The whitespace collapse at the top of parse_street_name:
a space joined over address.split(). -/
def collapseWs (l : List Char) : List Char := joinWith [' '] (pySplitWs l)

/-- Python str.split on a single separator character (keeps empty segments). -/
def pySplitOn (sep : Char) : List Char → List (List Char)
  | [] => [[]]
  | c :: rest =>
    let r := pySplitOn sep rest
    if c = sep then [] :: r
    else
      match r with
      | h :: t => (c :: h) :: t
      | [] => [[c]]

/-- Python str.replace of a nonempty pattern by the empty string:
remove every nonoverlapping occurrence, scanning left to right.
Fuel-driven so that the recursion is structural; the fuel is the input
length, which bounds the number of steps. -/
def replaceAllAux (pat : List Char) : Nat → List Char → List Char
  | 0, l => l
  | _ + 1, [] => []
  | fuel + 1, c :: rest =>
    if !pat.isEmpty && pat.isPrefixOf (c :: rest) then
      replaceAllAux pat fuel ((c :: rest).drop pat.length)
    else c :: replaceAllAux pat fuel rest

def replaceAll (pat l : List Char) : List Char := replaceAllAux pat l.length l

/-- Word character for the regex word boundary, ASCII fragment of \w
(the characters adjacent to a postal code in the handled data are ASCII). -/
def isWordChar (c : Char) : Bool := c.isAlphanum || c = '_'

/-- Word boundary after a match: end of string or a non-word character. -/
def boundaryAfter : List Char → Bool
  | [] => true
  | c :: _ => !isWordChar c

/-- Match of the postal-code pattern (five digits, optional dash, three
digits, word boundary after) at the head of the list; returns the whole
matched text.  The optional dash is greedy; if a dash is present but not
followed by three digits the no-dash alternative cannot match either,
because the dash is not a digit. -/
def matchPostalHere (l : List Char) : Option (List Char) :=
  let d5 := l.take 5
  if d5.length = 5 && d5.all Char.isDigit then
    match l.drop 5 with
    | '-' :: r2 =>
      let d3 := r2.take 3
      if d3.length = 3 && d3.all Char.isDigit && boundaryAfter (r2.drop 3) then
        some (d5 ++ '-' :: d3)
      else none
    | r =>
      let d3 := r.take 3
      if d3.length = 3 && d3.all Char.isDigit && boundaryAfter (r.drop 3) then
        some (d5 ++ d3)
      else none
  else none

/-- re.search for the postal-code pattern: leftmost match.  The word
boundary before the match holds exactly when the previous character is
not a word character (the first matched character is a digit). -/
def findPostalAux : Option Char → List Char → Option (List Char)
  | _, [] => none
  | prev, c :: rest =>
    let okStart := match prev with
      | none => true
      | some p => !isWordChar p
    match (if okStart then matchPostalHere (c :: rest) else none) with
    | some g => some g
    | none => findPostalAux (some c) rest

/-- Split at the last comma: (text before it, text after it). -/
def lastCommaSplit (l : List Char) : Option (List Char × List Char) :=
  if l.contains ',' then
    let after := (l.reverse.takeWhile (fun c => c != ',')).reverse
    some (l.take (l.length - after.length - 1), after)
  else none

/-- Country extraction: re.search of comma, optional spaces, then one or
more non-comma characters anchored at the end.  The match can only start
at the last comma; the greedy space run backtracks one character when
everything after the comma is whitespace, so the captured group is then
the final character. -/
def countryStep (addr : List Char) : Option (List Char) × List Char :=
  match lastCommaSplit addr with
  | none => (none, addr)
  | some (before, after) =>
    let rest := after.dropWhile isPySpace
    if !rest.isEmpty then (some (pyStrip rest), pyStrip before)
    else
      match after.reverse with
      | [] => (none, addr)
      | c :: _ => (some (pyStrip [c]), pyStrip before)

/-- Postal-code extraction: capture, strip the dash from the group,
remove every occurrence of the matched text from the address, then strip
spaces and commas from both ends. -/
def postalStep (addr : List Char) : Option (List Char) × List Char :=
  match findPostalAux none addr with
  | none => (none, addr)
  | some g =>
    (some (g.filter (fun c => c != '-')), pyStripChars [' ', ','] (replaceAll g addr))

/-- Match of the state pattern (dash, spaces, two ASCII uppercase
letters, spaces, optional comma, spaces, end of string) at the head of
the list.  All the character classes involved are disjoint, so greedy
matching needs no backtracking. -/
def stateMatchHere : List Char → Option (List Char)
  | '-' :: rest =>
    (match rest.dropWhile isPySpace with
     | a :: b :: r2 =>
       if a.isUpper && b.isUpper then
         let r3 := r2.dropWhile isPySpace
         let r4 := match r3 with
           | ',' :: t => t
           | t => t
         if (r4.dropWhile isPySpace).isEmpty then some [a, b] else none
       else none
     | _ => none)
  | _ => none

/-- re.search for the state pattern: scan left to right for the first
position where the pattern matches through to the end. -/
def stateSearchAux : List Char → List Char → Option (List Char × List Char)
  | _, [] => none
  | seen, c :: rest =>
    match stateMatchHere (c :: rest) with
    | some g => some (g, seen.reverse)
    | none => stateSearchAux (c :: seen) rest

def stateStep (addr : List Char) : Option (List Char) × List Char :=
  match stateSearchAux [] addr with
  | none => (none, addr)
  | some (g, before) => (some g, pyStrip before)

/-- Python list indexing, with negative indexes counted from the end;
out of range raises IndexError. -/
def pyIdx (len : Nat) (i : Int) : Option Nat :=
  let j : Int := if i < 0 then i + len else i
  if 0 ≤ j && j < (len : Int) then some j.toNat else none

def pyGet {α : Type} (xs : List α) (i : Int) : Except String α :=
  match pyIdx xs.length i with
  | some j =>
    match xs.get? j with
    | some x => Except.ok x
    | none => Except.error "IndexError"
  | none => Except.error "IndexError"

def pySet {α : Type} (xs : List α) (i : Int) (v : α) : Except String (List α) :=
  match pyIdx xs.length i with
  | some j => Except.ok (xs.set j v)
  | none => Except.error "IndexError"

/-- City extraction: when the remaining address is nonempty, split on
commas, take the last segment as the city and rejoin the rest. -/
def cityStep (addr : List Char) : Except String (Option (List Char) × List Char) :=
  if addr.isEmpty then Except.ok (none, addr)
  else
    let parts := pySplitOn ',' addr
    if parts.length > 0 then
      match pyGet parts (-1) with
      | Except.error e => Except.error e
      | Except.ok lastP =>
        Except.ok (some (pyStrip lastP), pyStrip (joinWith [','] parts.dropLast))
    else Except.ok (none, addr)

/-- The ordered street-type token list of the source. -/
def street_types : List (List Char) :=
  ["Avenida", "Rua", "Alameda", "Travessa", "Praça",
   "Rodovia", "Estrada", "Viela", "Largo", "Beco",
   "Av.", "Al.", "R.", "Tv.", "Pç."].map String.toList

def findStreetType : List (List Char) → List Char → Option (List Char)
  | [], _ => none
  | t :: ts, fp => if t.isPrefixOf fp then some t else findStreetType ts fp

/-- First segment: prefix match against the street-type tokens, in
order; on a match the token is the street type and the stripped
remainder is the street name. -/
def streetTypeSplit (fp : List Char) : Option (List Char) × List Char :=
  match findStreetType street_types fp with
  | some t => (some t, pyStrip (fp.drop t.length))
  | none => (none, fp)

/-- re.sub of the leading-dash pattern (spaces, dash, spaces anchored at
the start) by the empty string: a no-op when no dash follows the leading
spaces. -/
def removeLeadingDash (l : List Char) : List Char :=
  match l.dropWhile isPySpace with
  | '-' :: r => r.dropWhile isPySpace
  | _ => l

/-- Trailing counterpart: spaces, dash, spaces anchored at the end. -/
def removeTrailingDash (l : List Char) : List Char :=
  match l.reverse.dropWhile isPySpace with
  | '-' :: r => (r.dropWhile isPySpace).reverse
  | _ => l

/-- re.sub of the alternation of the leading-dash and trailing-dash
patterns: the leading match is leftmost so it is removed first, then the
trailing match is sought in the remainder. -/
def subEdgeDashes (l : List Char) : List Char :=
  removeTrailingDash (removeLeadingDash l)

def isAsciiLetter (c : Char) : Bool := c.isAlpha

/-- Full match of digits optionally followed by one ASCII letter. -/
def isNumToken (l : List Char) : Bool :=
  let ds := l.takeWhile Char.isDigit
  let r := l.drop ds.length
  !ds.isEmpty && (r.isEmpty || (r.length = 1 && r.all isAsciiLetter))

/-- Match of the number-dash-rest pattern anchored on both sides:
digits, optional letter, spaces, a dash, spaces, then a nonempty rest
(the dot of the source regex does not match a newline; the strings this
is applied to are comma segments already stripped of whitespace, which
excludes the corner where the regex dollar sits before a final
newline). -/
def matchNumDashRest (l : List Char) : Option (List Char × List Char) :=
  let ds := l.takeWhile Char.isDigit
  if ds.isEmpty then none
  else
    let r := l.drop ds.length
    let (num, r1) := match r with
      | c :: rr => if isAsciiLetter c then (ds ++ [c], rr) else (ds, r)
      | [] => (ds, r)
    match r1.dropWhile isPySpace with
    | '-' :: r3 =>
      let rest := r3.dropWhile isPySpace
      if !rest.isEmpty && rest.all (fun c => c != '\n') then some (num, rest) else none
    | _ => none

/-- Match of the number-space-rest pattern: digits, optional letter, at
least one space, then a nonempty rest (same newline remark as above). -/
def matchNumSpaceRest (l : List Char) : Option (List Char × List Char) :=
  let ds := l.takeWhile Char.isDigit
  if ds.isEmpty then none
  else
    let r := l.drop ds.length
    let (num, r1) := match r with
      | c :: rr => if isAsciiLetter c then (ds ++ [c], rr) else (ds, r)
      | [] => (ds, r)
    let sp := r1.takeWhile isPySpace
    let rest := r1.drop sp.length
    if !sp.isEmpty && !rest.isEmpty && rest.all (fun c => c != '\n') then some (num, rest)
    else none

/-- Street-number step of parse_street_name: examine the first remaining
segment; a pure number token is consumed whole, otherwise a numeric
prefix split on a dash or a space records the number and pushes the rest
back as a segment. -/
def numberStep (parts : List (List Char)) :
    Except String (Option (List Char) × List (List Char)) :=
  if parts.length ≥ 1 then
    match pyGet parts 0 with
    | Except.error e => Except.error e
    | Except.ok p0 =>
      let pn := pyStrip (removeLeadingDash (pyStrip p0))
      if isNumToken pn then Except.ok (some pn, parts.drop 1)
      else
        match matchNumDashRest pn with
        | some (num, rest) =>
          match pySet parts 0 rest with
          | Except.error e => Except.error e
          | Except.ok parts2 => Except.ok (some num, parts2)
        | none =>
          match matchNumSpaceRest pn with
          | some (num, rest) =>
            match pySet parts 0 rest with
            | Except.error e => Except.error e
            | Except.ok parts2 => Except.ok (some num, parts2)
          | none => Except.ok (none, parts)
  else Except.ok (none, parts)

/-- Python str.rfind of a substring: index of its last occurrence. -/
def rfindSub (pat l : List Char) : Option Nat :=
  ((List.range l.length).filter (fun i => pat.isPrefixOf (l.drop i))).getLast?

/-- Complement assembly: clean dashes off both ends of each remaining
segment, drop empties, and join the survivors with a spaced dash. -/
def complementOf (parts : List (List Char)) : Option (List Char) :=
  if parts.length > 0 then
    let cps := (parts.map (fun p => pyStrip (subEdgeDashes p))).filter (fun p => !p.isEmpty)
    if !cps.isEmpty then some (joinWith [' ', '-', ' '] cps) else none
  else none

/-- Neighborhood and complement step of parse_street_name: the last
remaining segment is the neighborhood candidate; an embedded spaced dash
splits it at its last occurrence, pushing the nonempty left part back as
a complement segment. -/
def neighborhoodStep (parts : List (List Char)) :
    Except String (Option (List Char) × Option (List Char)) :=
  if parts.length > 0 then
    match pyGet parts (-1) with
    | Except.error e => Except.error e
    | Except.ok lastP0 =>
      let lp := pyStrip (removeLeadingDash (pyStrip lastP0))
      match rfindSub [' ', '-', ' '] lp with
      | some i =>
        let neigh := pyStrip (lp.drop (i + 3))
        let before := pyStrip (lp.take i)
        let partsE :=
          if !before.isEmpty then pySet parts (-1) before
          else Except.ok parts.dropLast
        match partsE with
        | Except.error e => Except.error e
        | Except.ok parts2 => Except.ok (some neigh, complementOf parts2)
      | none => Except.ok (some lp, complementOf parts.dropLast)
  else Except.ok (none, none)

structure StructuredAddress where
  street_type : Option String
  street_name : Option String
  street_number : Option String
  street_complement : Option String
  street_neighborhood : Option String
  postalcode : Option String
  city : Option String
  state : Option String
  country : Option String
  deriving Repr, DecidableEq

def emptyStructuredAddress : StructuredAddress :=
  ⟨none, none, none, none, none, none, none, none, none⟩

def mkStr (l : List Char) : String := String.mk l

/-- DataFormatter.parse_street_name.  The list subscripts of the source
are threaded through Except so that an out-of-range access would surface
as an IndexError, exactly as in Python; the totality theorem below shows
none can occur. -/
def parse_street_name (address : Option String) : Except String StructuredAddress :=
  match address with
  | none => Except.ok emptyStructuredAddress
  | some s =>
    if s.isEmpty then Except.ok emptyStructuredAddress
    else
      let addr1 := collapseWs s.toList
      let cp := countryStep addr1
      let pp := postalStep cp.2
      let st := stateStep pp.2
      match cityStep st.2 with
      | Except.error e => Except.error e
      | Except.ok ct =>
        let base : StructuredAddress :=
          { emptyStructuredAddress with
            postalcode := pp.1.map mkStr
            city := ct.1.map mkStr
            state := st.1.map mkStr
            country := cp.1.map mkStr }
        if ct.2.isEmpty then Except.ok base
        else
          let parts := ((pySplitOn ',' ct.2).map pyStrip).filter (fun p => !p.isEmpty)
          if parts.isEmpty then Except.ok base
          else
            match pyGet parts 0 with
            | Except.error e => Except.error e
            | Except.ok first0 =>
              let ts := streetTypeSplit first0
              match numberStep (parts.drop 1) with
              | Except.error e => Except.error e
              | Except.ok np =>
                match neighborhoodStep np.2 with
                | Except.error e => Except.error e
                | Except.ok nc =>
                  Except.ok { base with
                    street_type := ts.1.map mkStr
                    street_name := some (mkStr (pyStrip ts.2))
                    street_number := np.1.map mkStr
                    street_complement := nc.2.map mkStr
                    street_neighborhood := nc.1.map mkStr }

example :
    parse_street_name (some "Rua Augusta, 123 - Consolação, São Paulo - SP, 01305-000, Brasil") =
      Except.ok { street_type := some "Rua", street_name := some "Augusta",
                  street_number := some "123", street_complement := none,
                  street_neighborhood := some "Consolação", postalcode := some "01305000",
                  city := some "São Paulo", state := some "SP", country := some "Brasil" } := by
  rfl

/-!  Opening-hours formatting (DataFormatter.format_opening_hours_periods).

A raw period is the pair of dictionaries of the API response; a missing
or empty dictionary is modelled as none (both are falsy in the source),
and a field explicitly present is some.  -/

structure TimePoint where
  day : Option Nat
  hour : Option Nat
  minute : Option Nat
  deriving Repr, DecidableEq

structure RawPeriod where
  open_data : Option TimePoint
  close_data : Option TimePoint
  deriving Repr, DecidableEq

/-- A row of the database-bound schedule list (also the shape of an
opening_hours table row). -/
structure SchedEntry where
  restaurant_id : Nat
  day_of_the_week : Option String
  opens_at : Option String
  closes_at : Option String
  is_opened : Bool
  deriving Repr, DecidableEq

/-- DataFormatter.format_day_name: the fixed 0 to 6 lookup table of
Portuguese day names. -/
def format_day_name (day_number : Nat) : Option String :=
  match day_number with
  | 0 => some "Domingo"
  | 1 => some "Segunda-feira"
  | 2 => some "Terça-feira"
  | 3 => some "Quarta-feira"
  | 4 => some "Quinta-feira"
  | 5 => some "Sexta-feira"
  | 6 => some "Sábado"
  | _ => none

/-- Python str(n).zfill(2) for a natural number. -/
def zfill2 (n : Nat) : List Char :=
  let s := (toString n).toList
  List.replicate (2 - s.length) '0' ++ s

def hhmm (h m : Nat) : String := mkStr (zfill2 h ++ ':' :: zfill2 m)

def defaultTP : TimePoint := ⟨none, none, none⟩

/-- Body of the first loop of format_opening_hours_periods: one open-day
entry built from a raw period, with dictionary lookups defaulting as in
the source (missing day defaults to 0, missing hour and minute default
to 0). -/
def openEntry (restaurant_id : Nat) (p : RawPeriod) : SchedEntry :=
  let od := p.open_data.getD defaultTP
  let cd := p.close_data.getD defaultTP
  { restaurant_id := restaurant_id
    day_of_the_week := format_day_name (od.day.getD 0)
    opens_at := some (hhmm (od.hour.getD 0) (od.minute.getD 0))
    closes_at := some (hhmm (cd.hour.getD 0) (cd.minute.getD 0))
    is_opened := true }

/-- Body of the second loop: a closed-day entry. -/
def closedEntry (restaurant_id : Nat) (d : Nat) : SchedEntry :=
  { restaurant_id := restaurant_id
    day_of_the_week := format_day_name d
    opens_at := none
    closes_at := none
    is_opened := false }

/-- Days present in the input: periods whose open dictionary is present
and carries a non-null day. -/
def opened_days (periods : List RawPeriod) : List Nat :=
  periods.filterMap (fun p =>
    match p.open_data with
    | some t => t.day
    | none => none)

/-- DataFormatter.format_opening_hours_periods: the two accumulation
loops of the source, kept as folds over the growing result list. -/
def format_opening_hours_periods (opening_hours_periods : List RawPeriod)
    (restaurant_id : Nat) : List SchedEntry :=
  if opening_hours_periods.isEmpty then []
  else
    let withOpen :=
      opening_hours_periods.foldl (fun acc p => acc ++ [openEntry restaurant_id p]) []
    (List.range 7).foldl
      (fun acc d =>
        if (opened_days opening_hours_periods).contains d then acc
        else acc ++ [closedEntry restaurant_id d])
      withOpen

/-!  Database model.

The three tables of the pipeline plus the quota table, and a psycopg2
connection: statements executed through a cursor act on the current
(uncommitted) state; commit makes the current state durable, rollback
restores the last committed state.  Timestamps are modelled by a clock
that ticks at each restaurant upsert.  -/

structure RestaurantParams where
  google_id : String
  google_name : String
  google_display_name : Option String
  street_type : Option String
  street_name : Option String
  street_number : Option String
  street_complement : Option String
  street_neighborhood : Option String
  postalcode : Option String
  city : Option String
  state : Option String
  country : Option String
  business_status : Option String
  editorial_summary : Option String
  google_url : Option String
  latitude : Option String
  longitude : Option String
  ratings : Option String
  vegetarian_food : Bool
  website : Option String
  opening_hours_description : Option String
  deriving Repr, DecidableEq

/-- A nested object of the API response carrying a text field. -/
structure TextField where
  text : Option String
  deriving Repr, DecidableEq

/-- The location object; numeric coordinates are modelled by their
decimal representation, since the source stringifies them anyway. -/
structure LocationField where
  latitude : Option String
  longitude : Option String
  deriving Repr, DecidableEq

structure RegularOpeningHours where
  periods : List RawPeriod
  weekdayDescriptions : Option (List String)
  deriving Repr, DecidableEq

/-- The raw detail record returned by the places lookup, with one field
per key the source reads; a missing or null key is none. -/
structure GoogleData where
  displayName : Option TextField
  formattedAddress : Option String
  location : Option LocationField
  googleMapsUri : Option String
  types : List String
  primaryTypeDisplayName : Option TextField
  websiteUri : Option String
  regularOpeningHours : Option RegularOpeningHours
  businessStatus : Option String
  editorialSummary : Option TextField
  rating : Option String
  servesVegetarianFood : Option Bool
  deriving Repr, DecidableEq

structure RestaurantRow where
  id : Nat
  params : RestaurantParams
  updated_at : Nat
  deriving Repr, DecidableEq

structure TypeRow where
  restaurant_id : Nat
  restaurant_type : String
  is_primary_type : Bool
  deriving Repr, DecidableEq

structure QuotaRow where
  month_year : String
  api_service : String
  quota_limit : Nat
  quota_used : Nat
  deriving Repr, DecidableEq

structure DB where
  restaurants : List RestaurantRow
  opening_hours : List SchedEntry
  restaurant_types : List TypeRow
  google_api_quota : List QuotaRow
  next_id : Nat
  clock : Nat
  deriving Repr, DecidableEq

structure Conn where
  committed : DB
  current : DB
  deriving Repr, DecidableEq

def Conn.commit (c : Conn) : Conn := ⟨c.current, c.current⟩

def Conn.rollback (c : Conn) : Conn := ⟨c.committed, c.committed⟩

/-- DataFormatter.format_opening_hours_description: join the description
lines with newlines, drop thin spaces, then turn newlines into comma
separators. -/
def format_opening_hours_description (o : Option (List String)) : Option String :=
  match o with
  | none => none
  | some xs =>
    if xs.isEmpty then none
    else
      let joined := joinWith ['\n'] (xs.map String.toList)
      let cleaned :=
        (joined.filter (fun c => c != '\u2009')).flatMap
          (fun c => if c = '\n' then [',', ' '] else [c])
      some (mkStr cleaned)

/-- Python str applied to an optional value: the value itself when
present, the text None when absent (str of the Python None object). -/
def pyStrOfOpt : Option String → String
  | some s => s
  | none => "None"

/-- Parameter dictionary built by RestaurantDataProcessor._insert_restaurant.
The location key is subscripted directly in the source, so a record with
no location raises KeyError; latitude and longitude are passed through
str, so an absent coordinate is stored as the text None rather than as
SQL null; rating is stringified only when the key is present. -/
def build_restaurant_params (google_id restaurant_name : String)
    (d : GoogleData) (street_parsed : StructuredAddress) :
    Except String RestaurantParams :=
  match d.location with
  | none => Except.error "KeyError: location"
  | some loc =>
    Except.ok {
      google_id := google_id
      google_name := restaurant_name
      google_display_name := (d.displayName.getD ⟨none⟩).text
      street_type := street_parsed.street_type
      street_name := street_parsed.street_name
      street_number := street_parsed.street_number
      street_complement := street_parsed.street_complement
      street_neighborhood := street_parsed.street_neighborhood
      postalcode := street_parsed.postalcode
      city := street_parsed.city
      state := street_parsed.state
      country := street_parsed.country
      business_status := d.businessStatus
      editorial_summary := (d.editorialSummary.getD ⟨none⟩).text
      google_url := d.googleMapsUri
      latitude := some (pyStrOfOpt loc.latitude)
      longitude := some (pyStrOfOpt loc.longitude)
      ratings := d.rating
      vegetarian_food := d.servesVegetarianFood.getD false
      website := d.websiteUri
      opening_hours_description :=
        format_opening_hours_description
          ((d.regularOpeningHours.getD ⟨[], none⟩).weekdayDescriptions) }

/-- The INSERT with ON CONFLICT (google_id) DO UPDATE of the source:
insert a fresh row with the next surrogate id, or overwrite every column
of the matching row and bump its timestamp; returns the surrogate id.
The clock ticks so that successive statements see different
CURRENT_TIMESTAMP values. -/
def upsertRestaurant (db : DB) (p : RestaurantParams) : DB × Nat :=
  match db.restaurants.find? (fun r => r.params.google_id == p.google_id) with
  | some r =>
    ({ db with
       restaurants := db.restaurants.map (fun q =>
         if q.params.google_id == p.google_id then
           { q with params := p, updated_at := db.clock }
         else q)
       clock := db.clock + 1 }, r.id)
  | none =>
    ({ db with
       restaurants := db.restaurants ++ [⟨db.next_id, p, db.clock⟩]
       next_id := db.next_id + 1
       clock := db.clock + 1 }, db.next_id)

def quota_limits_standard : String → Option Nat
  | "essential" => some 10000
  | "pro" => some 5000
  | "enterprise" => some 1000
  | _ => none

/-- One iteration of the loop of add_quota_counter: increment the
counter row of the month and tier, or create it with usage one; an
unknown tier is skipped. -/
def quotaStep (month_year : String) (db : DB) (api_service : String) : DB :=
  if db.google_api_quota.any
      (fun q => q.month_year == month_year && q.api_service == api_service) then
    { db with google_api_quota := db.google_api_quota.map (fun q =>
        if q.month_year == month_year && q.api_service == api_service then
          { q with quota_used := q.quota_used + 1 }
        else q) }
  else
    match quota_limits_standard api_service with
    | none => db
    | some lim =>
      { db with google_api_quota :=
          db.google_api_quota ++ [⟨month_year, api_service, lim, 1⟩] }

/-- add_quota_counter with its default service list.  The final
conn.commit() of the source commits the whole connection, including any
statements executed earlier in the surrounding unit of work. -/
def add_quota_counter (c : Conn) (month_year : String) : Conn :=
  Conn.commit
    { c with current := ["pro", "essential", "enterprise"].foldl (quotaStep month_year) c.current }

/-- RestaurantDataProcessor._insert_opening_hours: read the periods (an
absent regularOpeningHours key or an empty periods list means no
insertion), format them, and insert every formatted entry.  No delete is
issued. -/
def insert_opening_hours (db : DB) (d : GoogleData) (restaurant_id : Nat) : DB :=
  let periods := (d.regularOpeningHours.getD ⟨[], none⟩).periods
  if periods.isEmpty then db
  else
    { db with opening_hours :=
        db.opening_hours ++ format_opening_hours_periods periods restaurant_id }

/-- The INSERT with ON CONFLICT (restaurant_id, restaurant_type) DO
NOTHING of the source: append the row unless its key is already
present. -/
def insertTypeIgnore (db : DB) (row : TypeRow) : DB :=
  if db.restaurant_types.any (fun r =>
      r.restaurant_id == row.restaurant_id && r.restaurant_type == row.restaurant_type) then
    db
  else { db with restaurant_types := db.restaurant_types ++ [row] }

/-- RestaurantDataProcessor._insert_restaurant_types: every truthy entry
of the types list is inserted with the primary flag off, then the
primary type display name, when truthy, is inserted with the flag on. -/
def insert_restaurant_types (db : DB) (d : GoogleData) (restaurant_id : Nat) : DB :=
  let db1 := d.types.foldl
    (fun acc t => if t.isEmpty then acc else insertTypeIgnore acc ⟨restaurant_id, t, false⟩) db
  match (d.primaryTypeDisplayName.getD ⟨none⟩).text with
  | none => db1
  | some p => if p.isEmpty then db1 else insertTypeIgnore db1 ⟨restaurant_id, p, true⟩

inductive PError where
  | missingAddress
  | keyError
  | parseError
  | dbError
  | sqlSyntax
  deriving Repr, DecidableEq

/-- The enrichment portion of process_and_store: reject a record with a
falsy formattedAddress, parse the address, and build the restaurant
parameter dictionary. -/
def enrich_params (google_id restaurant_name : String) (d : GoogleData) :
    Except PError RestaurantParams :=
  match d.formattedAddress with
  | none => Except.error PError.missingAddress
  | some a =>
    if a.isEmpty then Except.error PError.missingAddress
    else
      match parse_street_name (some a) with
      | Except.error _ => Except.error PError.parseError
      | Except.ok sp =>
        match build_restaurant_params google_id restaurant_name d sp with
        | Except.error _ => Except.error PError.keyError
        | Except.ok p => Except.ok p

/-- The try block of process_and_store, given the fetched data: upsert
the restaurant row, run the quota counter (which commits the
connection), then insert the schedule and the type tags.  A storage
failure during schedule insertion is modelled by the scheduleFails
flag; the pair returned is the connection state reached and the
exception raised, if any. -/
def process_body (c : Conn) (google_id restaurant_name : String) (d : GoogleData)
    (month_year : String) (scheduleFails : Bool) : Conn × Option PError :=
  match enrich_params google_id restaurant_name d with
  | Except.error e => (c, some e)
  | Except.ok p =>
    let ur := upsertRestaurant c.current p
    let c1 := add_quota_counter { c with current := ur.1 } month_year
    if scheduleFails then (c1, some PError.dbError)
    else
      let db2 := insert_opening_hours c1.current d ur.2
      let db3 := insert_restaurant_types db2 d ur.2
      ({ c1 with current := db3 }, none)

/-- RestaurantDataProcessor.process_and_store: a failed fetch returns
silently; otherwise the body runs, a success is committed, and an
exception triggers conn.rollback and is re-raised. -/
def process_and_store (c : Conn) (restaurant_name : String)
    (fetchResult : Option (String × GoogleData)) (month_year : String)
    (scheduleFails : Bool) : Conn × Option PError :=
  match fetchResult with
  | none => (c, none)
  | some (google_id, d) =>
    match process_body c google_id restaurant_name d month_year scheduleFails with
    | (c1, none) => (Conn.commit c1, none)
    | (c1, some e) => (Conn.rollback c1, some e)

/-- The placeholder list built for the VALUES clause of
get_restaurants_to_insert. -/
def valuesPlaceholders (n : Nat) : String :=
  mkStr (joinWith [','] (List.replicate n "(%s)".toList))

/-- RestaurantDataProcessor.get_restaurants_to_insert: the names of the
input list that match no stored google_name, in input order.  A VALUES
clause needs at least one row, so an empty placeholder list makes the
query a syntax error raised at execute time. -/
def get_restaurants_to_insert (db : DB) (restaurants_names_list : List String) :
    Except PError (List String) :=
  if (valuesPlaceholders restaurants_names_list.length).isEmpty then
    Except.error PError.sqlSyntax
  else
    Except.ok (restaurants_names_list.filter (fun n =>
      !(db.restaurants.any (fun r => r.params.google_name == n))))

/-- The per-name loop of main: process each name in turn; an exception
raised by process_and_store propagates and ends the run. -/
def mainLoop (month_year : String) (fetch : String → Option (String × GoogleData))
    (schedFail : String → Bool) : Conn → List String → Conn × Option PError
  | c, [] => (c, none)
  | c, n :: rest =>
    match process_and_store c n (fetch n) month_year (schedFail n) with
    | (c1, none) => mainLoop month_year fetch schedFail c1 rest
    | (c1, some e) => (c1, some e)

/-- The driver main of the source: reconcile the name list against the
stored names, truncate the create list to its first element (the
slice [:1] of the source), and process the remainder sequentially. -/
def main_run (c : Conn) (restaurants_names_list : List String)
    (fetch : String → Option (String × GoogleData)) (schedFail : String → Bool)
    (month_year : String) : Conn × Option PError :=
  match get_restaurants_to_insert c.current restaurants_names_list with
  | Except.error e => (c, some e)
  | Except.ok to_insert => mainLoop month_year fetch schedFail c (to_insert.take 1)

/-!  Totality of the address parser.  -/

theorem pySplitOn_ne_nil (sep : Char) (l : List Char) : pySplitOn sep l ≠ [] := by
  induction l with
  | nil => simp [pySplitOn]
  | cons c rest ih =>
    simp only [pySplitOn]
    split
    · simp
    · cases h : pySplitOn sep rest with
      | nil => simp
      | cons a b => simp

theorem pyGet_zero_ok {α : Type} (xs : List α) (h : xs ≠ []) :
    ∃ x, pyGet xs 0 = Except.ok x := by
  match xs, h with
  | x :: rest, _ =>
    refine ⟨x, ?_⟩
    simp [pyGet, pyIdx]

theorem pyGet_neg_one_ok {α : Type} (xs : List α) (h : xs ≠ []) :
    ∃ x, pyGet xs (-1) = Except.ok x := by
  have hlen : 0 < xs.length := List.length_pos.mpr h
  have hj : pyIdx xs.length (-1) = some (xs.length - 1) := by
    simp only [pyIdx]
    have h1 : (-1 : Int) + xs.length = ((xs.length - 1 : Nat) : Int) := by omega
    have h2 : ((-1 : Int) < 0) = True := by simp
    simp only [h2, if_true, h1]
    have : (0 : Int) ≤ ((xs.length - 1 : Nat) : Int) := by positivity
    have hlt : ((xs.length - 1 : Nat) : Int) < (xs.length : Int) := by omega
    simp [this, hlt]
  obtain ⟨x, hx⟩ := List.get?_eq_get (l := xs) (n := xs.length - 1) (by omega) ▸
    (⟨xs.get ⟨xs.length - 1, by omega⟩, rfl⟩ : ∃ y, xs.get? (xs.length - 1) = xs.get? (xs.length - 1))
  exact ⟨xs.get ⟨xs.length - 1, by omega⟩, by
    simp only [pyGet, hj]
    rw [List.get?_eq_get (by omega)]⟩

theorem pySet_zero_ok {α : Type} (xs : List α) (v : α) (h : xs ≠ []) :
    ∃ ys, pySet xs 0 v = Except.ok ys := by
  match xs, h with
  | x :: rest, _ =>
    refine ⟨(x :: rest).set 0 v, ?_⟩
    simp [pySet, pyIdx]

theorem pySet_neg_one_ok {α : Type} (xs : List α) (v : α) (h : xs ≠ []) :
    ∃ ys, pySet xs (-1) v = Except.ok ys := by
  have hlen : 0 < xs.length := List.length_pos.mpr h
  have hj : pyIdx xs.length (-1) = some (xs.length - 1) := by
    simp only [pyIdx]
    have h1 : (-1 : Int) + xs.length = ((xs.length - 1 : Nat) : Int) := by omega
    have h2 : ((-1 : Int) < 0) = True := by simp
    simp only [h2, if_true, h1]
    have h3 : (0 : Int) ≤ ((xs.length - 1 : Nat) : Int) := by positivity
    have hlt : ((xs.length - 1 : Nat) : Int) < (xs.length : Int) := by omega
    simp [h3, hlt]
  exact ⟨xs.set (xs.length - 1) v, by simp [pySet, hj]⟩

theorem cityStep_ok (addr : List Char) : ∃ out, cityStep addr = Except.ok out := by
  simp only [cityStep]
  split
  · exact ⟨_, rfl⟩
  · have hne := pySplitOn_ne_nil ',' addr
    have hpos : (pySplitOn ',' addr).length > 0 := List.length_pos.mpr hne
    obtain ⟨x, hx⟩ := pyGet_neg_one_ok (pySplitOn ',' addr) hne
    simp only [hpos, if_true, hx]
    exact ⟨_, rfl⟩

theorem numberStep_ok (parts : List (List Char)) :
    ∃ out, numberStep parts = Except.ok out := by
  simp only [numberStep]
  split
  case isTrue hlen =>
    have hne : parts ≠ [] := by
      cases parts <;> simp_all
    obtain ⟨p0, hp0⟩ := pyGet_zero_ok parts hne
    rw [hp0]
    split
    case h_1 e heq => simp at heq
    case h_2 p0q heq =>
      injection heq with heq2
      subst heq2
      split
      · exact ⟨_, rfl⟩
      · split
        case h_1 num rest heq3 =>
          obtain ⟨ys, hys⟩ := pySet_zero_ok parts rest hne
          rw [hys]
          split
          case h_1 e heq4 => simp at heq4
          case h_2 ys2 heq4 =>
            exact ⟨_, rfl⟩
        case h_2 heq3 =>
          split
          case h_1 num rest heq5 =>
            obtain ⟨ys, hys⟩ := pySet_zero_ok parts rest hne
            rw [hys]
            split
            case h_1 e heq6 => simp at heq6
            case h_2 ys2 heq6 =>
              exact ⟨_, rfl⟩
          case h_2 heq5 => exact ⟨_, rfl⟩
  case isFalse => exact ⟨_, rfl⟩

theorem neighborhoodStep_ok (parts : List (List Char)) :
    ∃ out, neighborhoodStep parts = Except.ok out := by
  simp only [neighborhoodStep]
  split
  case isTrue hlen =>
    have hne : parts ≠ [] := by
      cases parts <;> simp_all
    obtain ⟨p0, hp0⟩ := pyGet_neg_one_ok parts hne
    rw [hp0]
    split
    case h_1 e heq => simp at heq
    case h_2 p0q heq =>
      injection heq with heq2
      subst heq2
      split
      case h_1 i heq3 =>
        split
        case h_1 e heq4 =>
          split at heq4
          · obtain ⟨ys, hys⟩ := pySet_neg_one_ok parts _ hne
            rw [hys] at heq4
            simp at heq4
          · simp at heq4
        case h_2 parts2 heq4 => exact ⟨_, rfl⟩
      case h_2 heq3 => exact ⟨_, rfl⟩
  case isFalse => exact ⟨_, rfl⟩

theorem parse_street_name_total (a : Option String) :
    ∃ r, parse_street_name a = Except.ok r := by
  cases a with
  | none => exact ⟨_, rfl⟩
  | some s =>
    simp only [parse_street_name]
    split
    · exact ⟨_, rfl⟩
    · obtain ⟨ct, hct⟩ :=
        cityStep_ok (stateStep (postalStep (countryStep (collapseWs s.toList)).2).2).2
      rw [hct]
      split
      case h_1 e heq => simp at heq
      case h_2 ct2 heq =>
        injection heq with heq2
        subst heq2
        split
        · exact ⟨_, rfl⟩
        · split
          · exact ⟨_, rfl⟩
          case isFalse hpe =>
            have hne : ((pySplitOn ',' ct.2).map pyStrip).filter (fun p => !p.isEmpty) ≠ [] := by
              intro hnil
              rw [hnil] at hpe
              simp at hpe
            obtain ⟨f0, hf0⟩ := pyGet_zero_ok _ hne
            rw [hf0]
            split
            case h_1 e heq3 => simp at heq3
            case h_2 f0q heq3 =>
              injection heq3 with heq4
              subst heq4
              obtain ⟨np, hnp⟩ := numberStep_ok
                ((((pySplitOn ',' ct.2).map pyStrip).filter (fun p => !p.isEmpty)).drop 1)
              rw [hnp]
              split
              case h_1 e heq5 => simp at heq5
              case h_2 npq heq5 =>
                injection heq5 with heq6
                subst heq6
                obtain ⟨nc, hnc⟩ := neighborhoodStep_ok np.2
                rw [hnc]
                split
                case h_1 e heq7 => simp at heq7
                case h_2 ncq heq7 => exact ⟨_, rfl⟩

/-- Claim C5: the address parser, applied to the fully well-formed input
string of the specification, extracts every field exactly: street type
Rua, street name Augusta, street number 123, neighborhood Consolação,
city São Paulo, state SP, postal code 01305000 with the dash stripped,
country Brasil, and no street complement. -/
theorem c5_wellformed_address_roundtrip :
    parse_street_name (some "Rua Augusta, 123 - Consolação, São Paulo - SP, 01305-000, Brasil") =
      Except.ok { street_type := some "Rua", street_name := some "Augusta",
                  street_number := some "123", street_complement := none,
                  street_neighborhood := some "Consolação", postalcode := some "01305000",
                  city := some "São Paulo", state := some "SP", country := some "Brasil" } := by
  rfl

/-- Claim C9: the address parser is total: every input (including the
absent and empty inputs, both falsy in the source) produces a structured
address and never raises, and the empty string yields the address with
every one of the nine fields absent. -/
theorem c9_parser_total :
    (∀ a : Option String, ∃ r, parse_street_name a = Except.ok r) ∧
    parse_street_name (some "") = Except.ok emptyStructuredAddress ∧
    parse_street_name none = Except.ok emptyStructuredAddress :=
  ⟨parse_street_name_total, rfl, rfl⟩

/-!  Shape of the formatted schedule (claim C4).  -/

theorem foldl_append_map {α β : Type} (l : List α) (init : List β) (f : α → β) :
    l.foldl (fun acc x => acc ++ [f x]) init = init ++ l.map f := by
  induction l generalizing init with
  | nil => simp
  | cons x rest ih => simp [ih]

theorem foldl_closed_filter {α β : Type} (l : List α) (init : List β)
    (P : α → Bool) (g : α → β) :
    l.foldl (fun acc d => if P d then acc else acc ++ [g d]) init =
      init ++ (l.filter (fun d => !P d)).map g := by
  induction l generalizing init with
  | nil => simp
  | cons x rest ih =>
    by_cases h : P x <;> simp [h, ih]

theorem format_opening_hours_periods_eq (periods : List RawPeriod) (rid : Nat)
    (h : periods ≠ []) :
    format_opening_hours_periods periods rid =
      periods.map (openEntry rid) ++
        ((List.range 7).filter
          (fun d => !((opened_days periods).contains d))).map (closedEntry rid) := by
  simp only [format_opening_hours_periods, List.isEmpty_iff, h, if_false]
  rw [foldl_append_map, foldl_closed_filter]
  simp

theorem opened_days_eq_map (periods : List RawPeriod)
    (hwf : ∀ p ∈ periods, ∃ t d, p.open_data = some t ∧ t.day = some d ∧ d < 7) :
    opened_days periods =
      periods.map (fun p => (p.open_data.getD defaultTP).day.getD 0) := by
  induction periods with
  | nil => rfl
  | cons p rest ih =>
    obtain ⟨t, d, hod, hday, _⟩ := hwf p (List.mem_cons_self p rest)
    have ihr := ih (fun q hq => hwf q (List.mem_cons_of_mem p hq))
    simp [opened_days, List.filterMap_cons, hod, hday] at ihr ⊢
    exact ihr

theorem opened_days_lt (periods : List RawPeriod)
    (hwf : ∀ p ∈ periods, ∃ t d, p.open_data = some t ∧ t.day = some d ∧ d < 7) :
    ∀ x ∈ opened_days periods, x < 7 := by
  intro x hx
  simp only [opened_days, List.mem_filterMap] at hx
  obtain ⟨p, hp, hpx⟩ := hx
  obtain ⟨t, d, hod, hday, hd7⟩ := hwf p hp
  rw [hod] at hpx
  simp only at hpx
  rw [hday] at hpx
  cases hpx
  exact hd7

theorem length_filter_split {α : Type} (l : List α) (p : α → Bool) :
    (l.filter p).length + (l.filter (fun a => !p a)).length = l.length := by
  induction l with
  | nil => simp
  | cons x rest ih =>
    by_cases h : p x <;> simp [h] <;> omega

theorem length_filter_mem (s : List Nat) (l : List Nat) (hs : s.Nodup) (hl : l.Nodup)
    (hsub : ∀ x ∈ s, x ∈ l) :
    (l.filter (fun d => s.contains d)).length = s.length := by
  induction l generalizing s with
  | nil =>
    have : s = [] := List.eq_nil_iff_forall_not_mem.mpr (fun x hx => by simpa using hsub x hx)
    simp [this]
  | cons a l2 ih =>
    have hal2 : a ∉ l2 := (List.nodup_cons.mp hl).1
    have hl2 : l2.Nodup := (List.nodup_cons.mp hl).2
    by_cases hmem : a ∈ s
    · have hca : s.contains a = true := by
        simpa [List.elem_iff] using hmem
      have hfe : l2.filter (fun d => s.contains d) =
          l2.filter (fun d => (s.erase a).contains d) := by
        apply List.filter_congr
        intro x hx
        have hxa : x ≠ a := fun hxe => hal2 (hxe ▸ hx)
        have hiff : x ∈ s ↔ x ∈ s.erase a := (List.mem_erase_of_ne hxa).symm
        simp only [List.elem_eq_mem]
        exact decide_eq_decide.mpr hiff
      have hrec := ih (s.erase a) (hs.erase a) hl2 (fun x hx => by
        have hxs := List.mem_of_mem_erase hx
        have hxa : x ≠ a := (List.Nodup.mem_erase_iff hs).mp hx |>.1
        rcases List.mem_cons.mp (hsub x hxs) with h | h
        · exact absurd h hxa
        · exact h)
      have hlen_erase : (s.erase a).length = s.length - 1 := List.length_erase_of_mem hmem
      have hspos : 0 < s.length := List.length_pos.mpr (fun h => by simp [h] at hmem)
      simp only [List.filter_cons, hca, if_true, List.length_cons, hfe, hrec, hlen_erase]
      omega
    · have hca : s.contains a = false := by
        cases hcc : s.contains a
        · rfl
        · exact absurd (List.elem_iff.mp hcc) hmem
      have hrec := ih s hs hl2 (fun x hx => by
        rcases List.mem_cons.mp (hsub x hx) with h | h
        · exact absurd (h ▸ hx) hmem
        · exact h)
      rw [List.filter_cons, hca]
      simpa using hrec

/-- Claim C4: for a list of raw periods in which every period carries a
day in 0 to 6 and no day repeats, the formatter returns the empty list
on empty input, and otherwise exactly 7 entries: one open entry per
input period, in input order, with the zero-padded times of openEntry,
followed by one closed entry for each absent day in ascending day order;
the day names cover all seven days with no duplicates. -/
theorem c4_schedule_normalizer (periods : List RawPeriod) (rid : Nat)
    (hwf : ∀ p ∈ periods, ∃ t d, p.open_data = some t ∧ t.day = some d ∧ d < 7)
    (hnd : (opened_days periods).Nodup) :
    format_opening_hours_periods [] rid = [] ∧
    (periods ≠ [] →
      format_opening_hours_periods periods rid =
        periods.map (openEntry rid) ++
          ((List.range 7).filter
            (fun d => !((opened_days periods).contains d))).map (closedEntry rid) ∧
      (format_opening_hours_periods periods rid).length = 7 ∧
      ((format_opening_hours_periods periods rid).map (fun e => e.day_of_the_week)).Nodup ∧
      (∀ d, d < 7 → format_day_name d ∈
        (format_opening_hours_periods periods rid).map (fun e => e.day_of_the_week))) := by
  constructor
  · rfl
  · intro hne
    have heq := format_opening_hours_periods_eq periods rid hne
    have hmap := opened_days_eq_map periods hwf
    have hlt := opened_days_lt periods hwf
    have hlen_open : (opened_days periods).length = periods.length := by
      rw [hmap]; simp
    have hsub : ∀ x ∈ opened_days periods, x ∈ List.range 7 :=
      fun x hx => List.mem_range.mpr (hlt x hx)
    have hcount := length_filter_mem (opened_days periods) (List.range 7) hnd
      (List.nodup_range 7) hsub
    have hsplit := length_filter_split (List.range 7)
      (fun d => (opened_days periods).contains d)
    have hlen : (format_opening_hours_periods periods rid).length = 7 := by
      rw [heq]
      simp only [List.length_append, List.length_map]
      simp only [List.length_range] at hsplit
      omega
    have hmapday : (format_opening_hours_periods periods rid).map (fun e => e.day_of_the_week) =
        (opened_days periods).map format_day_name ++
          ((List.range 7).filter
            (fun d => !((opened_days periods).contains d))).map format_day_name := by
      rw [heq, List.map_append, List.map_map, List.map_map, hmap, List.map_map]
      rfl
    have hDnd : ((opened_days periods) ++
        (List.range 7).filter (fun d => !((opened_days periods).contains d))).Nodup := by
      apply List.Nodup.append hnd ((List.nodup_range 7).filter _)
      intro x hx1 hx2
      have hpx := List.of_mem_filter hx2
      simp only [List.elem_eq_mem] at hpx
      simp at hpx
      exact hpx hx1
    have hD7 : ∀ x ∈ (opened_days periods) ++
        (List.range 7).filter (fun d => !((opened_days periods).contains d)), x < 7 := by
      intro x hx
      rcases List.mem_append.mp hx with h | h
      · exact hlt x h
      · exact List.mem_range.mp (List.mem_of_mem_filter h)
    have hinj : ∀ a < 7, ∀ b < 7, format_day_name a = format_day_name b → a = b := by decide
    have hnodup_names : (((opened_days periods) ++
        (List.range 7).filter
          (fun d => !((opened_days periods).contains d))).map format_day_name).Nodup :=
      List.Nodup.map_on
        (fun x hx y hy hf => hinj x (hD7 x hx) y (hD7 y hy) hf) hDnd
    refine ⟨heq, hlen, ?_, ?_⟩
    · rw [hmapday, ← List.map_append]
      exact hnodup_names
    · intro d hd
      rw [hmapday, ← List.map_append]
      have hdD : d ∈ (opened_days periods) ++
          (List.range 7).filter (fun d => !((opened_days periods).contains d)) := by
        by_cases hmemo : d ∈ opened_days periods
        · exact List.mem_append.mpr (Or.inl hmemo)
        · refine List.mem_append.mpr (Or.inr ?_)
          refine List.mem_filter.mpr ⟨List.mem_range.mpr hd, ?_⟩
          simp [List.elem_eq_mem, hmemo]
      exact List.mem_map_of_mem format_day_name hdD

/-- Schedule input of the specification example: open periods for days
1, 3 and 5, opening at hour 9 minute 0. -/
def c4demoPeriods : List RawPeriod :=
  [⟨some ⟨some 1, some 9, some 0⟩, some ⟨some 1, some 17, some 30⟩⟩,
   ⟨some ⟨some 3, some 9, some 0⟩, some ⟨some 3, some 17, some 30⟩⟩,
   ⟨some ⟨some 5, some 9, some 0⟩, some ⟨some 5, some 17, some 30⟩⟩]

theorem c4_schedule_normalizer_witness :
    ((format_opening_hours_periods c4demoPeriods 1).length = 7 ∧
      ((format_opening_hours_periods c4demoPeriods 1).map
        (fun e => e.day_of_the_week)).Nodup) ∧
    format_opening_hours_periods c4demoPeriods 1 =
      [⟨1, some "Segunda-feira", some "09:00", some "17:30", true⟩,
       ⟨1, some "Quarta-feira", some "09:00", some "17:30", true⟩,
       ⟨1, some "Sexta-feira", some "09:00", some "17:30", true⟩,
       ⟨1, some "Domingo", none, none, false⟩,
       ⟨1, some "Terça-feira", none, none, false⟩,
       ⟨1, some "Quinta-feira", none, none, false⟩,
       ⟨1, some "Sábado", none, none, false⟩] := by
  constructor
  · have h := (c4_schedule_normalizer c4demoPeriods 1
      (by
        intro p hp
        simp only [c4demoPeriods, List.mem_cons, List.not_mem_nil, or_false] at hp
        rcases hp with rfl | rfl | rfl
        · exact ⟨_, _, rfl, rfl, by omega⟩
        · exact ⟨_, _, rfl, rfl, by omega⟩
        · exact ⟨_, _, rfl, rfl, by omega⟩)
      (by decide)).2 (by decide)
    exact ⟨h.2.1, h.2.2.1⟩
  · rfl

/-!  Reconciliation (claims C8 and C10).  -/

theorem mkStr_cons_isEmpty (c : Char) (l : List Char) :
    (mkStr (c :: l)).isEmpty = false := by
  cases h : (mkStr (c :: l)).isEmpty
  · rfl
  · exfalso
    have h2 : mkStr (c :: l) = "" := (String.isEmpty_iff _).mp h
    have h3 := congrArg String.data h2
    simp [mkStr] at h3

theorem valuesPlaceholders_succ_isEmpty (n : Nat) :
    (valuesPlaceholders (n + 1)).isEmpty = false := by
  cases n with
  | zero => rfl
  | succ m => rfl

theorem get_restaurants_to_insert_ok (db : DB) (names : List String) (h : names ≠ []) :
    get_restaurants_to_insert db names =
      Except.ok (names.filter (fun n =>
        !(db.restaurants.any (fun r => r.params.google_name == n)))) := by
  obtain ⟨x, rest, rfl⟩ := List.exists_cons_of_ne_nil h
  simp only [get_restaurants_to_insert, List.length_cons, valuesPlaceholders_succ_isEmpty,
    Bool.false_eq_true, if_false]

/-- Claim C10: calling the reconciliation query with an empty name list
produces an empty VALUES placeholder list, hence a malformed query that
raises at execute time; any nonempty list succeeds, so a nonempty input
is an unstated precondition. -/
theorem c10_empty_values_raises :
    (∀ db : DB, get_restaurants_to_insert db [] = Except.error PError.sqlSyntax) ∧
    (∀ (db : DB) (names : List String), names ≠ [] →
      ∃ l, get_restaurants_to_insert db names = Except.ok l) := by
  constructor
  · intro db
    rfl
  · intro db names h
    exact ⟨_, get_restaurants_to_insert_ok db names h⟩

def emptyDB : DB := ⟨[], [], [], [], 1, 0⟩

theorem c10_empty_values_raises_witness :
    ∃ l, get_restaurants_to_insert emptyDB ["Bar X"] = Except.ok l :=
  c10_empty_values_raises.2 emptyDB ["Bar X"] (by simp)

/-- Restaurant parameters with only the identifying fields set, used to
populate concrete stored states. -/
def sampleParams (gid gname : String) : RestaurantParams :=
  { google_id := gid, google_name := gname, google_display_name := none,
    street_type := none, street_name := none, street_number := none,
    street_complement := none, street_neighborhood := none, postalcode := none,
    city := none, state := none, country := none, business_status := none,
    editorial_summary := none, google_url := none, latitude := none,
    longitude := none, ratings := none, vegetarian_food := false,
    website := none, opening_hours_description := none }

/-- A stored state holding one restaurant whose google_name is the
plain text A. -/
def c8db : DB := ⟨[⟨1, sampleParams "g1" "A", 0⟩], [], [], [], 2, 1⟩

/-- Reconciliation as claim C8 words it (refinement comparison only):
exact string equality after trimming both sides, trimming being Python
str.strip. -/
def claim_to_create (desired stored : List String) : List String :=
  desired.filter (fun n =>
    !(stored.any (fun s => mkStr (pyStrip s.toList) == mkStr (pyStrip n.toList))))

/-- Claim C8, counterexample: the stored name A and the desired name A
followed by a space are equal after trimming, so the claim returns no
name to create, but the code compares without trimming and returns the
name. -/
theorem c8_counterexample :
    get_restaurants_to_insert c8db ["A "] = Except.ok ["A "] ∧
    claim_to_create ["A "] ["A"] = [] := by
  constructor
  · rfl
  · rfl

/-- Claim C8 as amended: for every nonempty name list the query returns
exactly the desired names that equal no stored google_name under plain
string equality, with no trimming and no substring matching. -/
theorem c8_exact_set_difference : ∀ (db : DB) (names : List String), names ≠ [] →
    ∃ l, get_restaurants_to_insert db names = Except.ok l ∧
      ∀ n, n ∈ l ↔ (n ∈ names ∧ ¬∃ r ∈ db.restaurants, r.params.google_name = n) := by
  intro db names h
  refine ⟨_, get_restaurants_to_insert_ok db names h, ?_⟩
  have hpred : ∀ n : String,
      ((!(db.restaurants.any (fun r => r.params.google_name == n))) = true) ↔
        (¬∃ r ∈ db.restaurants, r.params.google_name = n) := by
    intro n
    simp [List.any_eq_true]
  intro n
  rw [List.mem_filter, hpred n]

theorem c8_exact_set_difference_witness :
    ∃ l, get_restaurants_to_insert c8db ["A", "B"] = Except.ok l ∧
      ∀ n, n ∈ l ↔ (n ∈ ["A", "B"] ∧ ¬∃ r ∈ c8db.restaurants, r.params.google_name = n) :=
  c8_exact_set_difference c8db ["A", "B"] (by simp)

/-!  Null-coalescing of optional scalar fields (claim C6).  -/

/-- A detail record with an address and a present but empty location
object: both coordinates are missing from the API record. -/
def c6data : GoogleData :=
  { displayName := none,
    formattedAddress := some "Rua A, 1, Centro, São Paulo - SP, 01000-000, Brasil",
    location := some ⟨none, none⟩, googleMapsUri := none, types := [],
    primaryTypeDisplayName := none, websiteUri := none, regularOpeningHours := none,
    businessStatus := none, editorialSummary := none, rating := none,
    servesVegetarianFood := none }

/-- Claim C6, counterexample: a record with an address whose latitude
and longitude are missing stores the text None for both coordinates,
a sentinel value rather than null. -/
theorem c6_counterexample :
    ∃ p, enrich_params "g1" "Bar X" c6data = Except.ok p ∧
      p.latitude = some "None" ∧ p.longitude = some "None" := by
  exact ⟨_, rfl, rfl, rfl⟩

/-- Claim C6 as amended: for a record with an address and a location
object, every listed optional scalar field null-coalesces (absent maps
to absent) and the vegetarian flag defaults to false, except latitude
and longitude, which are stringified so that an absent coordinate is
stored as the text None; a record with no location object at all raises
KeyError instead. -/
theorem c6_null_coalescing : ∀ (gid name : String) (d : GoogleData) (a : String)
    (loc : LocationField),
    d.formattedAddress = some a → a.isEmpty = false → d.location = some loc →
    ∃ p, enrich_params gid name d = Except.ok p ∧
      (d.businessStatus = none → p.business_status = none) ∧
      (d.websiteUri = none → p.website = none) ∧
      (d.rating = none → p.ratings = none) ∧
      (d.editorialSummary = none → p.editorial_summary = none) ∧
      (d.googleMapsUri = none → p.google_url = none) ∧
      (d.displayName = none → p.google_display_name = none) ∧
      (d.servesVegetarianFood = none → p.vegetarian_food = false) ∧
      (loc.latitude = none → p.latitude = some "None") ∧
      (loc.longitude = none → p.longitude = some "None") := by
  intro gid name d a loc ha hae hloc
  obtain ⟨sp, hsp⟩ := parse_street_name_total (some a)
  simp only [enrich_params, ha, hae, Bool.false_eq_true, if_false, hsp,
    build_restaurant_params, hloc]
  refine ⟨_, rfl, ?_, ?_, ?_, ?_, ?_, ?_, ?_, ?_, ?_⟩
  · intro h; simp [h]
  · intro h; simp [h]
  · intro h; simp [h]
  · intro h; simp [h]
  · intro h; simp [h]
  · intro h; simp [h]
  · intro h; simp [h]
  · intro h; simp [h, pyStrOfOpt]
  · intro h; simp [h, pyStrOfOpt]

theorem c6_null_coalescing_witness :
    ∃ p, enrich_params "g1" "Bar X" c6data = Except.ok p ∧
      (c6data.businessStatus = none → p.business_status = none) ∧
      (c6data.websiteUri = none → p.website = none) ∧
      (c6data.rating = none → p.ratings = none) ∧
      (c6data.editorialSummary = none → p.editorial_summary = none) ∧
      (c6data.googleMapsUri = none → p.google_url = none) ∧
      (c6data.displayName = none → p.google_display_name = none) ∧
      (c6data.servesVegetarianFood = none → p.vegetarian_food = false) ∧
      ((⟨none, none⟩ : LocationField).latitude = none → p.latitude = some "None") ∧
      ((⟨none, none⟩ : LocationField).longitude = none → p.longitude = some "None") :=
  c6_null_coalescing "g1" "Bar X" c6data
    "Rua A, 1, Centro, São Paulo - SP, 01000-000, Brasil" ⟨none, none⟩ rfl rfl rfl

/-!  Type-tag inserts (claim C7).  -/

/-- Uniqueness of the (restaurant, tag string) key over the tag table,
the constraint backing the ON CONFLICT clause. -/
def typesKeyUnique (l : List TypeRow) : Prop :=
  l.Pairwise (fun a b => ¬(a.restaurant_id = b.restaurant_id ∧ a.restaurant_type = b.restaurant_type))

theorem typesFold_spec (rid : Nat) (ts : List String) : ∀ db : DB,
    ∃ new, (ts.foldl (fun acc t => if t.isEmpty then acc
        else insertTypeIgnore acc ⟨rid, t, false⟩) db) =
        { db with restaurant_types := db.restaurant_types ++ new } ∧
      (∀ r ∈ new, r.is_primary_type = false) ∧
      (typesKeyUnique db.restaurant_types → typesKeyUnique (db.restaurant_types ++ new)) := by
  induction ts with
  | nil =>
    intro db
    exact ⟨[], by simp, by simp, fun h => by simpa using h⟩
  | cons t ts ih =>
    intro db
    simp only [List.foldl_cons]
    by_cases hemp : t.isEmpty
    · simp only [hemp, if_true]
      exact ih db
    · simp only [hemp, Bool.false_eq_true, if_false]
      cases hany : db.restaurant_types.any
          (fun r => r.restaurant_id == rid && r.restaurant_type == t) with
      | true =>
        have hstep : insertTypeIgnore db ⟨rid, t, false⟩ = db := by
          simp [insertTypeIgnore, hany]
        rw [hstep]
        exact ih db
      | false =>
        have hstep : insertTypeIgnore db ⟨rid, t, false⟩ =
            { db with restaurant_types := db.restaurant_types ++ [⟨rid, t, false⟩] } := by
          simp [insertTypeIgnore, hany]
        rw [hstep]
        obtain ⟨new1, heq1, hfalse1, huniq1⟩ :=
          ih { db with restaurant_types := db.restaurant_types ++ [⟨rid, t, false⟩] }
        refine ⟨⟨rid, t, false⟩ :: new1, ?_, ?_, ?_⟩
        · rw [heq1]
          simp
        · intro r hr
          rcases List.mem_cons.mp hr with h | h
          · rw [h]
          · exact hfalse1 r h
        · intro hu
          have hnew : ∀ a ∈ db.restaurant_types,
              ¬(a.restaurant_id = rid ∧ a.restaurant_type = t) := by
            intro a ha hcon
            have := List.any_eq_false.mp hany a ha
            simp only [Bool.and_eq_true, beq_iff_eq] at this
            exact this ⟨hcon.1, hcon.2⟩
          have hu1 : typesKeyUnique (db.restaurant_types ++ [⟨rid, t, false⟩]) := by
            unfold typesKeyUnique
            rw [List.pairwise_append]
            refine ⟨hu, List.pairwise_singleton _ _, ?_⟩
            intro a ha b hb
            have hb2 : b = ⟨rid, t, false⟩ := by simpa using hb
            subst hb2
            exact hnew a ha
          have := huniq1 hu1
          simpa using this

theorem insert_restaurant_types_spec (db : DB) (d : GoogleData) (rid : Nat) :
    ∃ new, insert_restaurant_types db d rid =
        { db with restaurant_types := db.restaurant_types ++ new } ∧
      (new.filter (fun r => r.is_primary_type)).length ≤ 1 ∧
      (typesKeyUnique db.restaurant_types →
        typesKeyUnique (insert_restaurant_types db d rid).restaurant_types) := by
  obtain ⟨new1, heq1, hfalse1, huniq1⟩ := typesFold_spec rid d.types db
  have hfilter1 : new1.filter (fun r => r.is_primary_type) = [] :=
    List.filter_eq_nil_iff.mpr (fun r hr => by simp [hfalse1 r hr])
  unfold insert_restaurant_types
  rw [heq1]
  cases hprim : (d.primaryTypeDisplayName.getD ⟨none⟩).text with
  | none =>
    refine ⟨new1, rfl, by simp [hfilter1], fun hu => ?_⟩
    exact huniq1 hu
  | some pt =>
    by_cases hpe : pt.isEmpty
    · simp only [hpe, if_true]
      refine ⟨new1, rfl, by simp [hfilter1], fun hu => ?_⟩
      exact huniq1 hu
    · simp only [hpe, Bool.false_eq_true, if_false]
      cases hany : (db.restaurant_types ++ new1).any
          (fun r => r.restaurant_id == rid && r.restaurant_type == pt) with
      | true =>
        have hstep : insertTypeIgnore
            { db with restaurant_types := db.restaurant_types ++ new1 } ⟨rid, pt, true⟩ =
            { db with restaurant_types := db.restaurant_types ++ new1 } := by
          simp [insertTypeIgnore, hany]
        rw [hstep]
        refine ⟨new1, rfl, by simp [hfilter1], fun hu => ?_⟩
        exact huniq1 hu
      | false =>
        have hstep : insertTypeIgnore
            { db with restaurant_types := db.restaurant_types ++ new1 } ⟨rid, pt, true⟩ =
            { db with restaurant_types := (db.restaurant_types ++ new1) ++ [⟨rid, pt, true⟩] } := by
          simp [insertTypeIgnore, hany]
        rw [hstep]
        refine ⟨new1 ++ [⟨rid, pt, true⟩], by simp, ?_, fun hu => ?_⟩
        · rw [List.filter_append, hfilter1]
          simp
        · have hnew : ∀ a ∈ db.restaurant_types ++ new1,
              ¬(a.restaurant_id = rid ∧ a.restaurant_type = pt) := by
            intro a ha hcon
            have := List.any_eq_false.mp hany a ha
            simp only [Bool.and_eq_true, beq_iff_eq] at this
            exact this ⟨hcon.1, hcon.2⟩
          unfold typesKeyUnique
          dsimp only
          rw [List.pairwise_append]
          refine ⟨huniq1 hu, List.pairwise_singleton _ _, ?_⟩
          intro a ha b hb
          have hb2 : b = ⟨rid, pt, true⟩ := by simpa using hb
          subst hb2
          exact hnew a ha

/-- Claim C7 as amended: a single commit of the type tags appends rows
only (conflicting inserts are ignored, never overwritten), inserts at
most one row with the primary flag set, and preserves uniqueness of the
(restaurant, tag string) key; but, since stale tags are never deleted or
demoted, a sequence of commits with differing primary types can leave
more than one tag flagged primary, as the counterexample shows. -/
theorem c7_at_most_one_primary_per_commit (db : DB) (d : GoogleData) (rid : Nat) :
    ∃ new, insert_restaurant_types db d rid =
        { db with restaurant_types := db.restaurant_types ++ new } ∧
      (new.filter (fun r => r.is_primary_type)).length ≤ 1 ∧
      (typesKeyUnique db.restaurant_types →
        typesKeyUnique (insert_restaurant_types db d rid).restaurant_types) :=
  insert_restaurant_types_spec db d rid

theorem c7_at_most_one_primary_per_commit_witness :
    typesKeyUnique (insert_restaurant_types c8db c6data 1).restaurant_types := by
  obtain ⟨new, heq, hle, huniq⟩ := c7_at_most_one_primary_per_commit c8db c6data 1
  exact huniq (by unfold typesKeyUnique; decide)

/-- A detail record with a given primary type display name. -/
def c7data (ptype : String) : GoogleData :=
  { displayName := none,
    formattedAddress := some "Rua A, 1, Centro, São Paulo - SP, 01000-000, Brasil",
    location := some ⟨some "1.0", some "2.0"⟩, googleMapsUri := none,
    types := ["restaurant"], primaryTypeDisplayName := some ⟨some ptype⟩,
    websiteUri := none, regularOpeningHours := none, businessStatus := none,
    editorialSummary := none, rating := none, servesVegetarianFood := none }

/-- Claim C7, counterexample: two successful commits of the same
restaurant whose primary type changes from X to Y leave two stored tags
flagged primary, refuting the at-most-one-primary invariant over
sequences of commits. -/
def c7finalConn : Conn :=
  (process_and_store
    (process_and_store ⟨emptyDB, emptyDB⟩ "Bar X" (some ("g1", c7data "X"))
      "2026-10-01" false).1
    "Bar X" (some ("g1", c7data "Y")) "2026-10-01" false).1

theorem c7_counterexample :
    (c7finalConn.committed.restaurant_types.filter
      (fun r => r.restaurant_id == 1 && r.is_primary_type)).length = 2 := by
  decide

/-!  Atomicity of the commit (claim C1).

add_quota_counter commits the shared connection between the restaurant
upsert and the schedule insertion, so a failure raised afterwards is
rolled back only to that mid-unit commit point: the restaurant row stays
durable even though the unit of work raised and rolled back.  -/

/-- Claim C1, behavior of the code at the failing input: starting from
an empty store, a forced failure during schedule insertion for a
restaurant that did not previously exist surfaces the error and rolls
the connection back, yet the committed state still contains the
restaurant row: the pre-commit state is not restored. -/
theorem c1_schedule_failure_leaves_row :
    (process_and_store ⟨emptyDB, emptyDB⟩ "Bar X" (some ("g1", c7data "X"))
        "2026-10-01" true).2 = some PError.dbError ∧
    (process_and_store ⟨emptyDB, emptyDB⟩ "Bar X" (some ("g1", c7data "X"))
        "2026-10-01" true).1.current =
      (process_and_store ⟨emptyDB, emptyDB⟩ "Bar X" (some ("g1", c7data "X"))
        "2026-10-01" true).1.committed ∧
    ((process_and_store ⟨emptyDB, emptyDB⟩ "Bar X" (some ("g1", c7data "X"))
        "2026-10-01" true).1.committed.restaurants.map (fun r => r.params.google_id)) = ["g1"] ∧
    emptyDB.restaurants = [] := by
  refine ⟨rfl, rfl, ?_, rfl⟩
  decide

/-!  Per-item failure isolation (claim C3).  -/

/-- Fetch results of the counterexample run: the first name resolves to
a record with no address, the second to a fully processable record. -/
def c3fetch (n : String) : Option (String × GoogleData) :=
  if n = "A" then some ("gA", { c7data "X" with formattedAddress := none })
  else if n = "B" then some ("gB", c7data "X")
  else none

/-- Claim C3, counterexample: with the batch A, B where A has no address
and B would commit successfully, the run raises the missing-address
error out of the loop and ends with no restaurant stored: the failure of
item A aborts the batch and B is never processed. -/
theorem c3_counterexample :
    (main_run ⟨emptyDB, emptyDB⟩ ["A", "B"] c3fetch (fun _ => false) "2026-10-01").2 =
      some PError.missingAddress ∧
    (main_run ⟨emptyDB, emptyDB⟩ ["A", "B"] c3fetch (fun _ => false)
      "2026-10-01").1.committed.restaurants = [] := by
  constructor
  · decide
  · decide

/-- Claim C3 as amended: a failed fetch is isolated (the item is skipped
with no state change and no error), but a missing address raises out of
process_and_store, aborting the run; moreover the driver truncates the
create list to its first element, so the run result never depends on the
fetch or failure behavior of any name after the first candidate. -/
theorem c3_failure_isolation :
    (∀ (c : Conn) (n m : String) (sf : Bool),
      process_and_store c n none m sf = (c, none)) ∧
    (∀ (c : Conn) (n gid m : String) (d : GoogleData) (sf : Bool),
      d.formattedAddress = none →
      (process_and_store c n (some (gid, d)) m sf).2 = some PError.missingAddress) ∧
    (∀ (c : Conn) (names : List String)
      (fetch fetch2 : String → Option (String × GoogleData))
      (sf sf2 : String → Bool) (m : String),
      (∀ t0 rest, get_restaurants_to_insert c.current names = Except.ok (t0 :: rest) →
        fetch t0 = fetch2 t0 ∧ sf t0 = sf2 t0) →
      main_run c names fetch sf m = main_run c names fetch2 sf2 m) := by
  refine ⟨?_, ?_, ?_⟩
  · intro c n m sf
    rfl
  · intro c n gid m d sf ha
    simp [process_and_store, process_body, enrich_params, ha]
  · intro c names fetch fetch2 sf sf2 m hagree
    unfold main_run
    cases hres : get_restaurants_to_insert c.current names with
    | error e => rfl
    | ok to_insert =>
      cases to_insert with
      | nil => rfl
      | cons t0 rest =>
        obtain ⟨hf, hs⟩ := hagree t0 rest hres
        simp only [List.take_succ_cons, List.take_zero, mainLoop, hf, hs]

/-- A fetch function that agrees with c3fetch on the first candidate
only. -/
def c3fetch2 (n : String) : Option (String × GoogleData) :=
  if n = "A" then c3fetch n else none

theorem c3_failure_isolation_witness :
    process_and_store ⟨emptyDB, emptyDB⟩ "A" none "2026-10-01" false =
      (⟨emptyDB, emptyDB⟩, none) ∧
    (process_and_store ⟨emptyDB, emptyDB⟩ "A"
      (some ("gA", { c7data "X" with formattedAddress := none }))
      "2026-10-01" false).2 = some PError.missingAddress ∧
    main_run ⟨emptyDB, emptyDB⟩ ["A", "B"] c3fetch (fun _ => false) "2026-10-01" =
      main_run ⟨emptyDB, emptyDB⟩ ["A", "B"] c3fetch2 (fun _ => false) "2026-10-01" := by
  refine ⟨c3_failure_isolation.1 ⟨emptyDB, emptyDB⟩ "A" "2026-10-01" false,
    c3_failure_isolation.2.1 ⟨emptyDB, emptyDB⟩ "A" "gA" "2026-10-01"
      { c7data "X" with formattedAddress := none } false rfl,
    c3_failure_isolation.2.2 ⟨emptyDB, emptyDB⟩ ["A", "B"] c3fetch c3fetch2
      (fun _ => false) (fun _ => false) "2026-10-01" ?_⟩
  intro t0 rest heq
  have hval : get_restaurants_to_insert (⟨emptyDB, emptyDB⟩ : Conn).current ["A", "B"] =
      Except.ok ["A", "B"] := by rfl
  rw [hval] at heq
  injection heq with h3
  injection h3 with h4 h5
  subst h4
  exact ⟨rfl, rfl⟩

/-!  Re-running the commit with an unchanged record (claim C2).  -/

/-- A detail record with an address and a single Monday opening
period. -/
def c2data : GoogleData :=
  { c7data "X" with
    regularOpeningHours :=
      some ⟨[⟨some ⟨some 1, some 10, some 0⟩, some ⟨some 1, some 22, some 0⟩⟩], none⟩ }

def c2run1 : Conn :=
  (process_and_store ⟨emptyDB, emptyDB⟩ "Bar X" (some ("g1", c2data)) "2026-10-01" false).1

def c2run2 : Conn :=
  (process_and_store c2run1 "Bar X" (some ("g1", c2data)) "2026-10-01" false).1

/-- Claim C2, counterexample: the schedule is inserted with no preceding
delete, so committing the same record twice leaves 14 schedule rows
where the claim promises the row count does not grow past 7. -/
theorem c2_counterexample :
    c2run1.committed.opening_hours.length = 7 ∧
    c2run2.committed.opening_hours.length = 14 := by
  constructor
  · decide
  · decide

theorem find?_append_none {α : Type} (p : α → Bool) (l1 l2 : List α)
    (h : ∀ x ∈ l1, p x = false) :
    (l1 ++ l2).find? p = l2.find? p := by
  induction l1 with
  | nil => rfl
  | cons a t ih =>
    rw [List.cons_append, List.find?_cons_of_neg _ (by simp [h a (List.mem_cons_self a t)])]
    exact ih (fun x hx => h x (List.mem_cons_of_mem a hx))

theorem map_ite_id {α : Type} (l : List α) (pred : α → Bool) (f : α → α)
    (h : ∀ x ∈ l, pred x = false) :
    l.map (fun q => if pred q then f q else q) = l := by
  induction l with
  | nil => rfl
  | cons a t ih =>
    rw [List.map_cons, if_neg (by simp [h a (List.mem_cons_self a t)]),
      ih (fun x hx => h x (List.mem_cons_of_mem a hx))]

theorem quotaStep_quota_only (m s : String) (db : DB) :
    ∃ q, quotaStep m db s = { db with google_api_quota := q } := by
  unfold quotaStep
  split
  · exact ⟨_, rfl⟩
  · split
    · exact ⟨db.google_api_quota, rfl⟩
    · exact ⟨_, rfl⟩

theorem quotaFold_quota_only (m : String) : ∀ (l : List String) (db : DB),
    ∃ q, l.foldl (quotaStep m) db = { db with google_api_quota := q } := by
  intro l
  induction l with
  | nil => exact fun db => ⟨db.google_api_quota, rfl⟩
  | cons s t ih =>
    intro db
    rw [List.foldl_cons]
    obtain ⟨q1, hq1⟩ := quotaStep_quota_only m s db
    rw [hq1]
    exact ih _

theorem add_quota_counter_spec (c : Conn) (m : String) :
    ∃ q, add_quota_counter c m =
      Conn.commit { c with current := { c.current with google_api_quota := q } } := by
  unfold add_quota_counter
  obtain ⟨q, hq⟩ := quotaFold_quota_only m ["pro", "essential", "enterprise"] c.current
  rw [hq]
  exact ⟨q, rfl⟩

theorem upsert_fresh (db : DB) (p : RestaurantParams)
    (h : ∀ r ∈ db.restaurants, (r.params.google_id == p.google_id) = false) :
    upsertRestaurant db p =
      ({ db with
          restaurants := db.restaurants ++ [⟨db.next_id, p, db.clock⟩],
          next_id := db.next_id + 1, clock := db.clock + 1 }, db.next_id) := by
  have hf : db.restaurants.find? (fun r => r.params.google_id == p.google_id) = none :=
    List.find?_eq_none.mpr (fun x hx => by simp [h x hx])
  simp [upsertRestaurant, hf]

theorem upsert_update (db : DB) (p : RestaurantParams) (old : List RestaurantRow)
    (row : RestaurantRow)
    (hdb : db.restaurants = old ++ [row])
    (hold : ∀ r ∈ old, (r.params.google_id == p.google_id) = false)
    (hrow : (row.params.google_id == p.google_id) = true) :
    upsertRestaurant db p =
      ({ db with
          restaurants := old ++ [{ row with params := p, updated_at := db.clock }],
          clock := db.clock + 1 }, row.id) := by
  have hf : db.restaurants.find? (fun r => r.params.google_id == p.google_id) = some row := by
    rw [hdb, find?_append_none _ _ _ hold]
    exact List.find?_cons_of_pos _ hrow
  unfold upsertRestaurant
  rw [hf]
  rw [hdb, List.map_append, map_ite_id _ _ _ hold]
  simp only [List.map_cons, List.map_nil, if_pos hrow]

theorem insert_opening_hours_spec (db : DB) (d : GoogleData) (rid : Nat) :
    insert_opening_hours db d rid =
      { db with opening_hours := db.opening_hours ++
          format_opening_hours_periods (d.regularOpeningHours.getD ⟨[], none⟩).periods rid } := by
  unfold insert_opening_hours
  dsimp only
  split
  case isTrue h =>
    have hfmt : format_opening_hours_periods
        (d.regularOpeningHours.getD ⟨[], none⟩).periods rid = [] := by
      simp [format_opening_hours_periods, h]
    rw [hfmt]
    simp
  case isFalse h => rfl

/-- Presence of a (restaurant, tag) key in the tag table. -/
def typeKeyIn (l : List TypeRow) (rid : Nat) (t : String) : Bool :=
  l.any (fun r => r.restaurant_id == rid && r.restaurant_type == t)

theorem insertTypeIgnore_keyIn_mono (db : DB) (row : TypeRow) (rid : Nat) (t : String)
    (h : typeKeyIn db.restaurant_types rid t = true) :
    typeKeyIn (insertTypeIgnore db row).restaurant_types rid t = true := by
  unfold insertTypeIgnore
  split
  · exact h
  · unfold typeKeyIn at h ⊢
    simp only [List.any_append, h, Bool.true_or]

theorem insertTypeIgnore_keyIn_self (db : DB) (rid : Nat) (t : String) (b : Bool) :
    typeKeyIn (insertTypeIgnore db ⟨rid, t, b⟩).restaurant_types rid t = true := by
  unfold insertTypeIgnore
  split
  case isTrue h => simpa [typeKeyIn] using h
  case isFalse h =>
    unfold typeKeyIn
    simp [List.any_append]

theorem foldTypes_keyIn_mono (rid rid2 : Nat) (t2 : String) : ∀ (ts : List String) (db : DB),
    typeKeyIn db.restaurant_types rid2 t2 = true →
    typeKeyIn ((ts.foldl (fun acc t => if t.isEmpty then acc
      else insertTypeIgnore acc ⟨rid, t, false⟩) db)).restaurant_types rid2 t2 = true := by
  intro ts
  induction ts with
  | nil => exact fun db h => h
  | cons t' ts' ih =>
    intro db h
    rw [List.foldl_cons]
    by_cases hemp : t'.isEmpty
    · simp only [hemp, if_true]
      exact ih db h
    · simp only [hemp, Bool.false_eq_true, if_false]
      exact ih _ (insertTypeIgnore_keyIn_mono db _ rid2 t2 h)

theorem foldTypes_processed (rid : Nat) : ∀ (ts : List String) (db : DB) (t : String),
    t ∈ ts → t.isEmpty = false →
    typeKeyIn ((ts.foldl (fun acc t => if t.isEmpty then acc
      else insertTypeIgnore acc ⟨rid, t, false⟩) db)).restaurant_types rid t = true := by
  intro ts
  induction ts with
  | nil => intro db t hmem; exact absurd hmem (List.not_mem_nil t)
  | cons t' ts' ih =>
    intro db t hmem hne
    rw [List.foldl_cons]
    rcases List.mem_cons.mp hmem with h | h
    · subst h
      simp only [hne, Bool.false_eq_true, if_false]
      exact foldTypes_keyIn_mono rid rid t ts' _ (insertTypeIgnore_keyIn_self db rid t false)
    · exact ih _ t h hne

/-- All the tag keys a commit of the record d would insert for the
restaurant rid are already present. -/
def typeKeysPresent (l : List TypeRow) (d : GoogleData) (rid : Nat) : Prop :=
  (∀ t ∈ d.types, t.isEmpty = false → typeKeyIn l rid t = true) ∧
  (∀ p, (d.primaryTypeDisplayName.getD ⟨none⟩).text = some p → p.isEmpty = false →
    typeKeyIn l rid p = true)

theorem insert_restaurant_types_keysPresent (db : DB) (d : GoogleData) (rid : Nat) :
    typeKeysPresent (insert_restaurant_types db d rid).restaurant_types d rid := by
  unfold insert_restaurant_types
  constructor
  · intro t hmem hne
    have hfold := foldTypes_processed rid d.types db t hmem hne
    cases hprim : (d.primaryTypeDisplayName.getD ⟨none⟩).text with
    | none => exact hfold
    | some pt =>
      by_cases hpe : pt.isEmpty
      · simp only [hpe, if_true]
        exact hfold
      · simp only [hpe, Bool.false_eq_true, if_false]
        exact insertTypeIgnore_keyIn_mono _ _ rid t hfold
  · intro pp hpp hppe
    rw [hpp]
    simp only [hppe, Bool.false_eq_true, if_false]
    exact insertTypeIgnore_keyIn_self _ rid pp true

theorem insertTypeIgnore_present_noop (db : DB) (row : TypeRow)
    (h : typeKeyIn db.restaurant_types row.restaurant_id row.restaurant_type = true) :
    insertTypeIgnore db row = db := by
  unfold insertTypeIgnore
  rw [if_pos ?_]
  exact h

theorem foldTypes_noop (rid : Nat) : ∀ (ts : List String) (db : DB),
    (∀ t ∈ ts, t.isEmpty = false → typeKeyIn db.restaurant_types rid t = true) →
    ts.foldl (fun acc t => if t.isEmpty then acc
      else insertTypeIgnore acc ⟨rid, t, false⟩) db = db := by
  intro ts
  induction ts with
  | nil => intro db _; rfl
  | cons t' ts' ih =>
    intro db h
    rw [List.foldl_cons]
    by_cases hemp : t'.isEmpty
    · simp only [hemp, if_true]
      exact ih db (fun t hmem hne => h t (List.mem_cons_of_mem t' hmem) hne)
    · simp only [hemp, Bool.false_eq_true, if_false]
      rw [insertTypeIgnore_present_noop db ⟨rid, t', false⟩
        (h t' (List.mem_cons_self t' ts') (by simpa using hemp))]
      exact ih db (fun t hmem hne => h t (List.mem_cons_of_mem t' hmem) hne)

theorem insert_restaurant_types_noop (db : DB) (d : GoogleData) (rid : Nat)
    (h : typeKeysPresent db.restaurant_types d rid) :
    insert_restaurant_types db d rid = db := by
  unfold insert_restaurant_types
  rw [foldTypes_noop rid d.types db h.1]
  cases hprim : (d.primaryTypeDisplayName.getD ⟨none⟩).text with
  | none => rfl
  | some pt =>
    by_cases hpe : pt.isEmpty
    · simp only [hpe, if_true]
    · simp only [hpe, Bool.false_eq_true, if_false]
      exact insertTypeIgnore_present_noop db ⟨rid, pt, true⟩ (h.2 pt hprim (by simpa using hpe))

theorem process_run_fresh (c0 : Conn) (gid name m : String) (d : GoogleData)
    (p : RestaurantParams)
    (hp : enrich_params gid name d = Except.ok p)
    (hfresh : ∀ r ∈ c0.current.restaurants, (r.params.google_id == p.google_id) = false) :
    ∃ (S : DB) (q : List QuotaRow) (newT : List TypeRow),
      process_and_store c0 name (some (gid, d)) m false = (⟨S, S⟩, none) ∧
      S.restaurants = c0.current.restaurants ++
        [⟨c0.current.next_id, p, c0.current.clock⟩] ∧
      S.opening_hours = c0.current.opening_hours ++
        format_opening_hours_periods
          (d.regularOpeningHours.getD ⟨[], none⟩).periods c0.current.next_id ∧
      S.restaurant_types = c0.current.restaurant_types ++ newT ∧
      S.google_api_quota = q ∧
      S.next_id = c0.current.next_id + 1 ∧
      S.clock = c0.current.clock + 1 ∧
      typeKeysPresent S.restaurant_types d c0.current.next_id := by
  unfold process_and_store process_body
  dsimp only
  rw [hp]
  dsimp only
  rw [upsert_fresh c0.current p hfresh]
  dsimp only
  obtain ⟨q, hq⟩ := add_quota_counter_spec
    { c0 with current :=
        { c0.current with
          restaurants := c0.current.restaurants ++
            [⟨c0.current.next_id, p, c0.current.clock⟩],
          next_id := c0.current.next_id + 1,
          clock := c0.current.clock + 1 } } m
  rw [hq]
  unfold Conn.commit
  dsimp only
  rw [insert_opening_hours_spec]
  obtain ⟨newT, heqT, hle, huniq⟩ := insert_restaurant_types_spec
    { restaurants := c0.current.restaurants ++
        [⟨c0.current.next_id, p, c0.current.clock⟩],
      opening_hours := c0.current.opening_hours ++
        format_opening_hours_periods
          (d.regularOpeningHours.getD ⟨[], none⟩).periods c0.current.next_id,
      restaurant_types := c0.current.restaurant_types,
      google_api_quota := q,
      next_id := c0.current.next_id + 1,
      clock := c0.current.clock + 1 } d c0.current.next_id
  have hkp := insert_restaurant_types_keysPresent
    { restaurants := c0.current.restaurants ++
        [⟨c0.current.next_id, p, c0.current.clock⟩],
      opening_hours := c0.current.opening_hours ++
        format_opening_hours_periods
          (d.regularOpeningHours.getD ⟨[], none⟩).periods c0.current.next_id,
      restaurant_types := c0.current.restaurant_types,
      google_api_quota := q,
      next_id := c0.current.next_id + 1,
      clock := c0.current.clock + 1 } d c0.current.next_id
  rw [heqT] at hkp
  rw [heqT]
  refine ⟨_, q, newT, rfl, rfl, rfl, rfl, rfl, rfl, rfl, ?_⟩
  exact hkp

theorem process_run_update (c0 : Conn) (gid name m : String) (d : GoogleData)
    (p : RestaurantParams) (old : List RestaurantRow) (row : RestaurantRow)
    (hp : enrich_params gid name d = Except.ok p)
    (hdb : c0.current.restaurants = old ++ [row])
    (hold : ∀ r ∈ old, (r.params.google_id == p.google_id) = false)
    (hrow : (row.params.google_id == p.google_id) = true)
    (hkeys : typeKeysPresent c0.current.restaurant_types d row.id) :
    ∃ (S : DB) (q : List QuotaRow),
      process_and_store c0 name (some (gid, d)) m false = (⟨S, S⟩, none) ∧
      S.restaurants = old ++ [{ row with params := p, updated_at := c0.current.clock }] ∧
      S.opening_hours = c0.current.opening_hours ++
        format_opening_hours_periods
          (d.regularOpeningHours.getD ⟨[], none⟩).periods row.id ∧
      S.restaurant_types = c0.current.restaurant_types ∧
      S.google_api_quota = q ∧
      S.next_id = c0.current.next_id ∧
      S.clock = c0.current.clock + 1 := by
  unfold process_and_store process_body
  dsimp only
  rw [hp]
  dsimp only
  rw [upsert_update c0.current p old row hdb hold hrow]
  dsimp only
  obtain ⟨q, hq⟩ := add_quota_counter_spec
    { c0 with current :=
        { c0.current with
          restaurants := old ++ [{ row with params := p, updated_at := c0.current.clock }],
          clock := c0.current.clock + 1 } } m
  rw [hq]
  unfold Conn.commit
  dsimp only
  rw [insert_opening_hours_spec]
  rw [insert_restaurant_types_noop
    { restaurants := old ++ [{ row with params := p, updated_at := c0.current.clock }],
      opening_hours := c0.current.opening_hours ++
        format_opening_hours_periods
          (d.regularOpeningHours.getD ⟨[], none⟩).periods row.id,
      restaurant_types := c0.current.restaurant_types,
      google_api_quota := q,
      next_id := c0.current.next_id,
      clock := c0.current.clock + 1 } d row.id hkeys]
  exact ⟨_, q, rfl, rfl, rfl, rfl, rfl, rfl, rfl⟩

/-- Claim C2 as amended: committing the same record twice (for a
restaurant that was not stored before the first commit) succeeds both
times and yields the same surrogate id and the same restaurant row
content, with only the timestamp advancing, and leaves the type tags
unchanged; but the weekly schedule is not deleted and reinserted: the
second commit appends the formatted schedule rows again, so the
schedule row count grows instead of staying put. -/
theorem c2_recommit_same_record (c0 : Conn) (gid name m a : String) (d : GoogleData)
    (loc : LocationField)
    (ha : d.formattedAddress = some a) (hae : a.isEmpty = false)
    (hloc : d.location = some loc)
    (hfresh : ∀ r ∈ c0.current.restaurants, r.params.google_id ≠ gid) :
    (process_and_store c0 name (some (gid, d)) m false).2 = none ∧
    (process_and_store (process_and_store c0 name (some (gid, d)) m false).1 name
      (some (gid, d)) m false).2 = none ∧
    ∃ (p : RestaurantParams) (r1 r2 : RestaurantRow),
      enrich_params gid name d = Except.ok p ∧
      (process_and_store c0 name (some (gid, d)) m false).1.committed.restaurants.find?
        (fun r => r.params.google_id == gid) = some r1 ∧
      (process_and_store (process_and_store c0 name (some (gid, d)) m false).1 name
        (some (gid, d)) m false).1.committed.restaurants.find?
        (fun r => r.params.google_id == gid) = some r2 ∧
      r2.id = r1.id ∧
      r2.params = r1.params ∧
      r1.updated_at < r2.updated_at ∧
      (process_and_store (process_and_store c0 name (some (gid, d)) m false).1 name
        (some (gid, d)) m false).1.committed.restaurant_types =
        (process_and_store c0 name (some (gid, d)) m false).1.committed.restaurant_types ∧
      (process_and_store (process_and_store c0 name (some (gid, d)) m false).1 name
        (some (gid, d)) m false).1.committed.opening_hours =
        (process_and_store c0 name (some (gid, d)) m false).1.committed.opening_hours ++
          format_opening_hours_periods
            (d.regularOpeningHours.getD ⟨[], none⟩).periods r1.id := by
  obtain ⟨sp, hsp⟩ := parse_street_name_total (some a)
  obtain ⟨p, hp, hpgid⟩ : ∃ p, enrich_params gid name d = Except.ok p ∧ p.google_id = gid := by
    simp only [enrich_params, ha, hae, Bool.false_eq_true, if_false, hsp,
      build_restaurant_params, hloc]
    exact ⟨_, rfl, rfl⟩
  have hfresh' : ∀ r ∈ c0.current.restaurants, (r.params.google_id == p.google_id) = false := by
    intro r hr
    rw [hpgid]
    exact beq_eq_false_iff_ne.mpr (hfresh r hr)
  have hfreshGid : ∀ r ∈ c0.current.restaurants, ((fun r : RestaurantRow =>
      r.params.google_id == gid) r) = false := by
    intro r hr
    exact beq_eq_false_iff_ne.mpr (hfresh r hr)
  obtain ⟨S1, q1, newT1, hrun1, hres1, hhours1, htypes1, hquota1, hnext1, hclock1, hkp1⟩ :=
    process_run_fresh c0 gid name m d p hp hfresh'
  have hrow2 : (((⟨c0.current.next_id, p, c0.current.clock⟩ : RestaurantRow)).params.google_id
      == p.google_id) = true := by simp
  obtain ⟨S2, q2, hrun2, hres2, hhours2, htypes2, hquota2, hnext2, hclock2⟩ :=
    process_run_update ⟨S1, S1⟩ gid name m d p c0.current.restaurants
      ⟨c0.current.next_id, p, c0.current.clock⟩ hp hres1 hfresh' hrow2 hkp1
  rw [hrun1]
  dsimp only
  rw [hrun2]
  dsimp only
  refine ⟨rfl, rfl, p, ⟨c0.current.next_id, p, c0.current.clock⟩,
    ⟨c0.current.next_id, p, S1.clock⟩, hp, ?_, ?_, rfl, rfl, ?_, ?_, ?_⟩
  · rw [hres1, find?_append_none _ _ _ hfreshGid]
    exact List.find?_cons_of_pos _ (by simp [hpgid])
  · rw [hres2]
    have : ((⟨S1, S1⟩ : Conn).current.clock) = S1.clock := rfl
    rw [this, find?_append_none _ _ _ hfreshGid]
    exact List.find?_cons_of_pos _ (by simp [hpgid])
  · dsimp only
    rw [hclock1]
    exact Nat.lt_succ_self _
  · exact htypes2
  · exact hhours2

theorem c2_recommit_same_record_witness :
    (process_and_store ⟨emptyDB, emptyDB⟩ "Bar X" (some ("g1", c2data))
      "2026-10-01" false).2 = none ∧
    (process_and_store (process_and_store ⟨emptyDB, emptyDB⟩ "Bar X" (some ("g1", c2data))
      "2026-10-01" false).1 "Bar X" (some ("g1", c2data)) "2026-10-01" false).2 = none ∧
    ∃ (p : RestaurantParams) (r1 r2 : RestaurantRow),
      enrich_params "g1" "Bar X" c2data = Except.ok p ∧
      (process_and_store ⟨emptyDB, emptyDB⟩ "Bar X" (some ("g1", c2data))
        "2026-10-01" false).1.committed.restaurants.find?
        (fun r => r.params.google_id == "g1") = some r1 ∧
      (process_and_store (process_and_store ⟨emptyDB, emptyDB⟩ "Bar X" (some ("g1", c2data))
        "2026-10-01" false).1 "Bar X" (some ("g1", c2data))
        "2026-10-01" false).1.committed.restaurants.find?
        (fun r => r.params.google_id == "g1") = some r2 ∧
      r2.id = r1.id ∧
      r2.params = r1.params ∧
      r1.updated_at < r2.updated_at ∧
      (process_and_store (process_and_store ⟨emptyDB, emptyDB⟩ "Bar X" (some ("g1", c2data))
        "2026-10-01" false).1 "Bar X" (some ("g1", c2data))
        "2026-10-01" false).1.committed.restaurant_types =
        (process_and_store ⟨emptyDB, emptyDB⟩ "Bar X" (some ("g1", c2data))
          "2026-10-01" false).1.committed.restaurant_types ∧
      (process_and_store (process_and_store ⟨emptyDB, emptyDB⟩ "Bar X" (some ("g1", c2data))
        "2026-10-01" false).1 "Bar X" (some ("g1", c2data))
        "2026-10-01" false).1.committed.opening_hours =
        (process_and_store ⟨emptyDB, emptyDB⟩ "Bar X" (some ("g1", c2data))
          "2026-10-01" false).1.committed.opening_hours ++
          format_opening_hours_periods
            (c2data.regularOpeningHours.getD ⟨[], none⟩).periods r1.id :=
  c2_recommit_same_record ⟨emptyDB, emptyDB⟩ "g1" "Bar X" "2026-10-01"
    "Rua A, 1, Centro, São Paulo - SP, 01000-000, Brasil" c2data
    ⟨some "1.0", some "2.0"⟩ rfl rfl rfl
    (fun r hr => absurd hr (List.not_mem_nil r))
